import Mathlib

/-! Verification of the Container Filesystem Bridge implemented in
`app/routers/containers.py`: mount resolution with longest-prefix
matching, host path mapping with a traversal check, the in-container
prober with a structured primary parser and a heuristic fallback
parser, the single-file archive writer, and the three filesystem
endpoints (`get_container_files`, `download_container_file`,
`update_container_file`).

Python strings are modelled as Lean `String`s manipulated through
their underlying lists of characters, which matches Python's
code-point semantics for `len`, slicing, `split`, `strip` and
friends.  Filesystem and container-runtime effects are modelled by
oracles (`HostFS`, `ContainerOracle`); every operation returns its
result together with the ordered trace of effect events it performed,
so statements such as "the traversal check fires before any
filesystem access" are expressible as facts about the trace. -/

namespace MobilePortainer

/-- Python `s.rstrip("/")`: remove every trailing `/` character. -/
def pyRStripSlash (s : String) : String :=
  ⟨(s.data.reverse.dropWhile (fun c => c == '/')).reverse⟩

/-- Python `s.lstrip("/")`: remove every leading `/` character. -/
def pyLStripSlash (s : String) : String :=
  ⟨s.data.dropWhile (fun c => c == '/')⟩

/-- Python `len(s)` (number of code points). -/
def pyLen (s : String) : Nat := s.data.length

/-- Python slicing `s[n:]` (by code points). -/
def pyDrop (s : String) (n : Nat) : String := ⟨s.data.drop n⟩

/-- Python `s.startswith(p)`. -/
def pyStartsWith (s p : String) : Bool := p.data.isPrefixOf s.data

/-- Python `s.endswith(p)`. -/
def pyEndsWith (s p : String) : Bool := p.data.isSuffixOf s.data

/-- Python `s.strip()`: remove leading and trailing whitespace. -/
def pyStrip (s : String) : String :=
  ⟨((s.data.dropWhile Char.isWhitespace).reverse.dropWhile Char.isWhitespace).reverse⟩

/-- Python `s.lower()` (ASCII case folding suffices for the parsed
`stat` type descriptions). -/
def pyLower (s : String) : String := ⟨s.data.map Char.toLower⟩

/-- Helper for Python `s.split(sep)` with a one-character separator:
split a character list at every occurrence of `sep`, keeping empty
chunks, so that `splitCharAux sep []` is `[[]]` exactly as Python's
`"".split(sep)` is `[""]`. -/
def splitCharAux (sep : Char) : List Char → List (List Char)
  | [] => [[]]
  | c :: cs =>
    if c == sep then [] :: splitCharAux sep cs
    else
      match splitCharAux sep cs with
      | [] => [[c]]
      | h :: t => (c :: h) :: t

/-- Python `s.split(sep)` for a one-character separator `sep`. -/
def pySplit (s : String) (sep : Char) : List String :=
  (splitCharAux sep s.data).map (fun l => ⟨l⟩)

/-- Substring containment on character lists (Python `sub in s`). -/
def pyInSub (sub : List Char) : List Char → Bool
  | [] => sub.isEmpty
  | c :: cs => sub.isPrefixOf (c :: cs) || pyInSub sub cs

/-- Python `sub in s` for strings. -/
def pyContainsSub (s sub : String) : Bool := pyInSub sub.data s.data

/-- The characters of `name` before the first occurrence of `sep`
(Python `name.split(sep)[0]` for a nonempty separator). -/
def takeBeforeSep (sep : List Char) : List Char → List Char
  | [] => []
  | c :: cs => if sep.isPrefixOf (c :: cs) then [] else c :: takeBeforeSep sep cs

/-- Split a character list at every character satisfying `p`, keeping
empty chunks. -/
def splitPredAux (p : Char → Bool) : List Char → List (List Char)
  | [] => [[]]
  | c :: cs =>
    if p c then [] :: splitPredAux p cs
    else
      match splitPredAux p cs with
      | [] => [[c]]
      | h :: t => (c :: h) :: t

/-- Fields of a line split on runs of whitespace after stripping, as
`re.split` on whitespace runs over `line.strip()` produces them (the
lone empty-string artifact Python yields for an all-whitespace line is
dropped here; the caller only tests the field count, which that
artifact never brings to the required minimum). -/
def pyWhitespaceTokens (s : String) : List String :=
  ((splitPredAux Char.isWhitespace (pyStrip s).data).filter
    (fun l => !l.isEmpty)).map (fun l => ⟨l⟩)

/-- Python `os.path.join(a, b)` for POSIX paths and two components:
an absolute `b` replaces `a`; otherwise a separator is inserted unless
`a` is empty or already ends with one. -/
def osJoin (a b : String) : String :=
  if pyStartsWith b "/" then b
  else if a = "" || pyEndsWith a "/" then a ++ b
  else a ++ "/" ++ b

/-- Python `os.path.basename(p)` for POSIX paths: the characters after
the last `/`. -/
def basename (p : String) : String :=
  ⟨(p.data.reverse.takeWhile (fun c => !(c == '/'))).reverse⟩

/-- Python `os.path.dirname(p)` for POSIX paths: the prefix up to and
including the last `/`, with trailing slashes then stripped unless the
prefix consists only of slashes. -/
def dirname (p : String) : String :=
  let head : List Char := (p.data.reverse.dropWhile (fun c => !(c == '/'))).reverse
  if !head.isEmpty && head.any (fun c => !(c == '/')) then pyRStripSlash ⟨head⟩
  else ⟨head⟩

/-- Decimal digits to a natural number (helper for `pyInt?`). -/
def digitsVal? (ds : List Char) : Option Nat :=
  if ds.isEmpty then none
  else if ds.all Char.isDigit then
    some (ds.foldl (fun a c => a * 10 + (c.toNat - 48)) 0)
  else none

/-- Python `int(s)` as a partial function: optional sign followed by
decimal digits, with surrounding whitespace ignored; `none` models the
`ValueError` Python raises on any other input.  (Exotic numerals such
as underscore separators are modelled as failures; the bridge never
produces them.) -/
def pyInt? (s : String) : Option Int :=
  match (pyStrip s).data with
  | '-' :: ds => (digitsVal? ds).map (fun n => -(n : Int))
  | '+' :: ds => (digitsVal? ds).map (fun n => (n : Int))
  | ds => (digitsVal? ds).map (fun n => (n : Int))

/-! ## Data model -/

/-- One record of a container's `Mounts` attribute as the bridge reads
it: `mount.get("Source")` and `mount.get("Destination")`.  A missing
`Destination` key is `none`; the code also skips an empty destination
string (Python falsiness). -/
structure Mount where
  source : String
  destination : Option String
deriving DecidableEq, Repr

/-- One logical entry of a tar archive, as far as the bridge's
single-file archives are concerned: entry name, recorded byte size,
modification timestamp, and the text content written. -/
structure TarEntry where
  name : String
  size : Nat
  mtime : Nat
  data : String
deriving DecidableEq

/-- The effect events an operation can perform, in execution order:
host-filesystem probes and accesses, in-container command execution,
and archive transfer through the runtime. -/
inductive FSEvent where
  | hostExists (p : String)
  | hostIsFile (p : String)
  | hostIsDir (p : String)
  | hostGetSize (p : String)
  | hostRead (p : String)
  | hostWrite (p : String) (content : String)
  | hostScanDir (p : String)
  | execRun (cmd : String)
  | getArchive (p : String)
  | putArchive (dir : String) (entries : List TarEntry)
deriving DecidableEq

/-! ## Mount resolution

The three endpoints share one loop (lines 176-189, 557-569 and
651-664 of `containers.py`): normalize the requested path and each
destination by stripping trailing slashes, keep a mount whose
destination equals the path or is a `/`-boundary prefix of it, and
replace the current best only on a strictly longer destination.  Being
a fold over the mount list, the selection is a deterministic function
of the mount list and the path. -/

/-- One iteration of the best-match loop. -/
def resolveStep (pathClean : String) (best : Option Mount) (mount : Mount) :
    Option Mount :=
  match mount.destination with
  | none => best
  | some dest =>
    if dest = "" then best
    else
      let destClean := pyRStripSlash dest
      if pathClean = destClean ∨ pyStartsWith pathClean (destClean ++ "/") = true then
        match best with
        | none => some mount
        | some b =>
          if pyLen destClean > pyLen (pyRStripSlash (b.destination.getD "")) then
            some mount
          else best
      else best

/-- The full best-match loop over the mount list. -/
def bestMatch (mounts : List Mount) (pathClean : String) : Option Mount :=
  mounts.foldl (resolveStep pathClean) none

/-- A mount is eligible for a cleaned path when its destination key is
present and non-empty and the cleaned destination equals the path or
is a `/`-boundary prefix of it. -/
def mountMatches (pathClean : String) (m : Mount) : Bool :=
  match m.destination with
  | none => false
  | some dest =>
    if dest = "" then false
    else
      decide (pathClean = pyRStripSlash dest) ||
        pyStartsWith pathClean (pyRStripSlash dest ++ "/")

/-- Length of a mount's cleaned destination, the quantity the
longest-prefix tie-break compares. -/
def destCleanLen (m : Mount) : Nat := pyLen (pyRStripSlash (m.destination.getD ""))

/-! ## Effect oracles -/

/-- Raw bytes returned by an in-container command: either bytes that
decode as UTF-8 to a given string, or bytes that do not decode (the
only distinction the bridge ever makes).  Empty bytes decode to the
empty string, so `binary` output is always non-empty, hence truthy. -/
inductive Bytes where
  | text (s : String)
  | binary
deriving DecidableEq

/-- Python `bytes.decode` with UTF-8: `none` models `UnicodeDecodeError`. -/
def Bytes.decode? : Bytes → Option String
  | .text s => some s
  | .binary => none

/-- Python truthiness of the output bytes (`if exec_result.output`). -/
def Bytes.isTruthy : Bytes → Bool
  | .text s => !(s = "")
  | .binary => true

/-- Outcome of reading a host file as UTF-8 text
(`open(p, "r", encoding="utf-8").read()`). -/
inductive ReadOutcome where
  | ok (s : String)
  | decodeErr
  | ioErr (msg : String)
deriving DecidableEq

/-- Outcome of `container.get_archive(path)`. -/
inductive ArchiveOutcome where
  | found
  | notFound
  | failure (msg : String)
deriving DecidableEq

/-- One entry yielded by `os.scandir`, with the fields the listing
code reads; `statOk = false` models the `OSError` on `entry.stat()`
that makes the code skip the entry. -/
structure HostDirent where
  name : String
  is_dir : Bool
  size : Nat
  mtime : Int
  is_symlink : Bool
  statOk : Bool
deriving DecidableEq

/-- Oracle for the host filesystem as seen through
`HOST_FILESYSTEM_ROOT`-prefixed paths: `os.path.exists`,
`os.path.isfile`, `os.path.isdir`, `os.path.getsize`, a UTF-8 text
read, a UTF-8 text write (`some msg` models `OSError`), and
`os.scandir`. -/
structure HostFS where
  pathExists : String → Bool
  isfile : String → Bool
  isdir : String → Bool
  getsize : String → Nat
  readText : String → ReadOutcome
  writeText : String → String → Option String
  scandir : String → List HostDirent

/-- Oracle for the container runtime client: synchronous shell
execution (`exit status`, output bytes), archive retrieval, and
archive upload (`some msg` models a raised exception). -/
structure ContainerOracle where
  execRun : String → Nat × Bytes
  getArchive : String → ArchiveOutcome
  putArchive : String → Option String

/-- One row of a directory listing as the API returns it. -/
structure DirEntry where
  name : String
  type : String
  size : Int
  modified : Int
  is_symlink : Bool
  is_mounted : Bool
deriving DecidableEq

/-- Result of `get_container_files` (and of the prober it delegates
to): file content, a directory listing, an `HTTPException`, or an
uncaught Python exception that the endpoint's generic handler will
turn into a 500 response. -/
inductive GetResult where
  | fileContent (content : String)
  | listing (items : List DirEntry)
  | httpError (status : Nat) (detail : String)
  | crash (msg : String)
deriving DecidableEq

/-- Result of `download_container_file`: a direct `FileResponse` from
the host path, a tar `StreamingResponse` whose attachment filename is
recorded, or an `HTTPException`. -/
inductive DownloadResult where
  | fileResponse (hostPath : String) (filename : String)
  | archiveStream (filename : String)
  | httpError (status : Nat) (detail : String)
deriving DecidableEq

/-- Result of `update_container_file`. -/
inductive WriteResult where
  | success (message : String)
  | httpError (status : Nat) (detail : String)
deriving DecidableEq

/-! ## In-container prober (`list_files_via_exec`, lines 349-528)

The shell commands are built exactly as the f-strings in the source
build them, and the oracle maps each full command string to an exit
status and output bytes. -/

/-- `test -d '{path}'`. -/
def testDirCmd (path : String) : String := "test -d '" ++ path ++ "'"

/-- `test -f '{path}'`. -/
def testFileCmd (path : String) : String := "test -f '" ++ path ++ "'"

/-- `stat -c %s '{path}'`. -/
def statSizeCmd (path : String) : String := "stat -c %s '" ++ path ++ "'"

/-- `cat '{path}'`. -/
def catCmd (path : String) : String := "cat '" ++ path ++ "'"

/-- The structured per-entry listing command, delimiter `|`. -/
def statCmdFor (path : String) : String :=
  "for f in '" ++ pyRStripSlash path ++
    "'/*; do stat -c '%n|%s|%Y|%F' \"$f\" 2>/dev/null; done"

/-- `ls -la '{path}'`. -/
def lsCmdFor (path : String) : String := "ls -la '" ++ path ++ "'"

/-- The set of cleaned mount destinations, used to mark listed entries
that are themselves mount points (the source builds a Python set; only
membership is ever used, so a list models it). -/
def mountDestinations (mounts : List Mount) : List String :=
  mounts.filterMap (fun m =>
    match m.destination with
    | none => none
    | some d => if d = "" then none else some (pyRStripSlash d))

/-- Outcome of parsing one line of the structured `stat` output:
skipped (fewer than four `|`-fields), a parsed entry, or an uncaught
`ValueError` from `int()`. -/
inductive StatLineOutcome where
  | skip
  | entry (e : DirEntry)
  | err (msg : String)
deriving DecidableEq

/-- Parse one line of the primary strategy's output
(lines 421-456 of the source). -/
def parseStatLine (isDirFlag : Bool) (mountDests : List String) (line : String) :
    StatLineOutcome :=
  match pySplit line '|' with
  | full_path :: sizeStr :: mtimeStr :: typeStr :: _ =>
    match pyInt? sizeStr with
    | none => .err "invalid literal for int()"
    | some size =>
      match pyInt? mtimeStr with
      | none => .err "invalid literal for int()"
      | some mtime =>
        let type_str := pyLower typeStr
        let name := basename full_path
        let item_type := if pyContainsSub type_str "directory" then "directory" else "file"
        let is_symlink := pyContainsSub type_str "symbolic link"
        let item_clean_path := pyRStripSlash full_path
        let is_mounted := mountDests.contains item_clean_path
        .entry { name := name
               , type := if isDirFlag && name = "" then "directory" else item_type
               , size := size
               , modified := mtime
               , is_symlink := is_symlink
               , is_mounted := is_mounted }
  | _ => .skip

/-- Fold the primary parser over all lines: entries in order, stopping
with the first uncaught exception exactly as the Python loop does. -/
def parseStatLines (isDirFlag : Bool) (mountDests : List String) :
    List String → Except String (List DirEntry)
  | [] => .ok []
  | line :: rest =>
    match parseStatLine isDirFlag mountDests line with
    | .skip => parseStatLines isDirFlag mountDests rest
    | .entry e => (parseStatLines isDirFlag mountDests rest).map (fun l => e :: l)
    | .err m => .error m

/-- Parse one line of the `ls -la` fallback output (lines 475-526):
skip the `total` line and lines with fewer than eight
whitespace-delimited fields, classify by the first character of the
permission field, take the size from field index 4 (defaulting to 0 on
a parse failure), rebuild the name from fields 8 onward rejoined with
single spaces, skip `.` and `..`, and truncate a symlink's
`name -> target` notation at the arrow. -/
def parseLsLine (path_clean : String) (mountDests : List String) (line : String) :
    Option DirEntry :=
  if pyStartsWith line "total " then none
  else
    let parts := pyWhitespaceTokens line
    if parts.length < 8 then none
    else
      let perms := parts.getD 0 ""
      let is_dir := pyStartsWith perms "d"
      let is_symlink := pyStartsWith perms "l"
      let item_type := if is_dir then "directory" else "file"
      let size := (pyInt? (parts.getD 4 "")).getD 0
      if parts.length > 8 then
        let name0 := " ".intercalate (parts.drop 8)
        if name0 = "." ∨ name0 = ".." then none
        else
          let name : String :=
            if pyContainsSub name0 " -> " then ⟨takeBeforeSep " -> ".data name0.data⟩
            else name0
          let full_item_path := path_clean ++ "/" ++ name
          some { name := name
               , type := item_type
               , size := size
               , modified := 0
               , is_symlink := is_symlink
               , is_mounted := mountDests.contains full_item_path }
      else none

/-- The `ls -la` fallback strategy (lines 459-528): a non-zero exit is
a 404 carrying the command's output; otherwise every parseable line
becomes an entry. -/
def fallbackLs (c : ContainerOracle) (path : String) (mountDests : List String)
    (ev : List FSEvent) : GetResult × List FSEvent :=
  let lsCmd := lsCmdFor path
  let r := c.execRun lsCmd
  let ev := ev ++ [FSEvent.execRun lsCmd]
  if r.1 ≠ 0 then
    match r.2.decode? with
    | none => (.crash "UnicodeDecodeError", ev)
    | some s =>
      (.httpError 404 ("Path not found or not accessible inside container: " ++ s), ev)
  else
    match r.2.decode? with
    | none => (.crash "UnicodeDecodeError", ev)
    | some s =>
      let lines := pySplit (pyStrip s) '\n'
      let path_clean := pyRStripSlash path
      (.listing (lines.filterMap (parseLsLine path_clean mountDests)), ev)

/-- The directory-listing part of the prober reached both for a
directory and for a path that is neither directory nor file: try the
structured `stat` strategy, fall back to `ls -la` when it exits
non-zero or its output is empty (also after stripping). -/
def listDirViaExec (c : ContainerOracle) (path : String) (mounts : List Mount)
    (isDirFlag : Bool) (ev : List FSEvent) : GetResult × List FSEvent :=
  let mountDests := mountDestinations mounts
  let statCmd := statCmdFor path
  let r := c.execRun statCmd
  let ev := ev ++ [FSEvent.execRun statCmd]
  if r.1 = 0 ∧ r.2.isTruthy = true then
    match r.2.decode? with
    | none => (.crash "UnicodeDecodeError", ev)
    | some s =>
      let output_str := pyStrip s
      if output_str ≠ "" then
        match parseStatLines isDirFlag mountDests (pySplit output_str '\n') with
        | .ok items => (.listing items, ev)
        | .error m => (.crash m, ev)
      else fallbackLs c path mountDests ev
  else fallbackLs c path mountDests ev

/-- `list_files_via_exec(container, path, mounts)`: classify the path
with `test -d` and `test -f`; read a file with a best-effort size cap
of 1 MiB and a UTF-8 text requirement; list a directory through the
dual-strategy parser. -/
def list_files_via_exec (c : ContainerOracle) (path : String) (mounts : List Mount) :
    GetResult × List FSEvent :=
  let dirCmd := testDirCmd path
  let rDir := c.execRun dirCmd
  let ev := [FSEvent.execRun dirCmd]
  if rDir.1 = 0 then
    listDirViaExec c path mounts true ev
  else
    let fileCmd := testFileCmd path
    let rFile := c.execRun fileCmd
    let ev := ev ++ [FSEvent.execRun fileCmd]
    if rFile.1 = 0 then
      let szCmd := statSizeCmd path
      let rSz := c.execRun szCmd
      let ev := ev ++ [FSEvent.execRun szCmd]
      let sizeStop : Option (GetResult × List FSEvent) :=
        if rSz.1 = 0 then
          match rSz.2.decode? with
          | none => some (.crash "UnicodeDecodeError", ev)
          | some s =>
            match pyInt? s with
            | some size =>
              if size > 1024 * 1024 then
                some (.httpError 400 "File too large to view (max 1MB)", ev)
              else none
            | none => none
        else none
      match sizeStop with
      | some r => r
      | none =>
        let cCmd := catCmd path
        let rCat := c.execRun cCmd
        let ev := ev ++ [FSEvent.execRun cCmd]
        if rCat.1 ≠ 0 then
          match rCat.2.decode? with
          | none => (.crash "UnicodeDecodeError", ev)
          | some s => (.httpError 500 ("Error reading file: " ++ s), ev)
        else
          match rCat.2.decode? with
          | some content => (.fileContent content, ev)
          | none => (.httpError 400 "Binary file not supported", ev)
    else
      listDirViaExec c path mounts false ev

/-! ## Host path mapping -/

/-- The residual relative path of a matched mount (lines 684-688):
empty when the cleaned path equals the cleaned destination, otherwise
the cleaned path with the destination prefix dropped and leading
slashes stripped. -/
def resolveRelative (destClean pathClean : String) : String :=
  if pathClean = destClean then ""
  else pyLStripSlash (pyDrop pathClean (pyLen destClean))

/-- The host-side absolute path as `get_container_files` and
`download_container_file` compute it (lines 684-689): the mount source
itself on an exact destination match, otherwise
`os.path.join(source, relative)`. -/
def hostAbsPathOf (source destClean pathClean : String) : String :=
  if pathClean = destClean then source
  else osJoin source (resolveRelative destClean pathClean)

/-- The final path under the configured host-filesystem root
(lines 695-696): `os.path.join(hostRoot, host_abs_path.lstrip("/"))`. -/
def hostFinalPath (hostRoot source destClean pathClean : String) : String :=
  osJoin hostRoot (pyLStripSlash (hostAbsPathOf source destClean pathClean))

/-- The traversal predicate of the security check (lines 704, 207,
589): some `/`-separated segment of the relative path equals `..`
exactly. -/
def hasDotDotSegment (relative : String) : Bool :=
  (pySplit relative '/').contains ".."

/-- Modelled from the spec: the path-join of the host-path-mapper
formula `join(hostRoot, strip-leading-slash(join(mount.source,
relativePath)))`, where joining an empty residual path onto a path is
the identity (appending nothing).  Used only to compare the code's
computation against the specified formula. -/
def joinRelSpec (a b : String) : String :=
  if b = "" then a else osJoin a b

/-- Modelled from the spec: the host path mapper formula of section
4.2, `hostAbsolutePath = join(hostRoot, strip-leading-slash(
join(mount.source, relativePath)))`. -/
def mapToHostSpec (hostRoot source rel : String) : String :=
  osJoin hostRoot (pyLStripSlash (joinRelSpec source rel))

/-! ## Archive writer (`create_file_tar`, lines 530-539)

The Python standard library's tar serialization is an external
collaborator; the archive is modelled by its logical list of entries.
The build time `time.time()` is passed explicitly as `now`. -/

/-- `create_file_tar(filename, content)`: one entry named `filename`
whose recorded size is the byte length of the UTF-8 encoding of
`content` and whose modification time is the build time. -/
def create_file_tar (filename : String) (content : String) (now : Nat) :
    List TarEntry :=
  [{ name := filename
   , size := content.utf8ByteSize
   , mtime := now
   , data := content }]

/-! ## The three endpoints

Each endpoint is modelled from the `try` body onward, after the
container lookup succeeded: the mount list is the input that
`container.attrs.get("Mounts", [])` produced.  `hostRoot` is the
configured `HOST_FILESYSTEM_ROOT` (default `/hostfs`). -/

/-- Items of a host directory scan (lines 729-743): entries whose
`stat` succeeds, all reported with `is_mounted = True`. -/
def hostListing (entries : List HostDirent) : List DirEntry :=
  entries.filterMap (fun e =>
    if e.statOk then
      some { name := e.name
           , type := if e.is_dir then "directory" else "file"
           , size := (e.size : Int)
           , modified := e.mtime
           , is_symlink := e.is_symlink
           , is_mounted := true }
    else none)

/-- The matched-mount branch of `get_container_files`
(lines 670-745): map to the host path, run the traversal check before
any host access, then read a text file (1 MiB cap, UTF-8 only) or
enumerate a directory. -/
def getHostMatched (hostRoot : String) (fs : HostFS) (best : Mount)
    (path : String) : GetResult × List FSEvent :=
  let mount_source := best.source
  let mount_dest_clean := pyRStripSlash (best.destination.getD "")
  let path_clean := pyRStripSlash path
  let relative_path := resolveRelative mount_dest_clean path_clean
  let host_abs_path := hostAbsPathOf mount_source mount_dest_clean path_clean
  let final_path := hostFinalPath hostRoot mount_source mount_dest_clean path_clean
  if hasDotDotSegment relative_path then
    (.httpError 403 "Path traversal detected", [])
  else
    let ev := [FSEvent.hostExists final_path]
    if fs.pathExists final_path = false then
      (.httpError 404 ("Path not found on host: " ++ host_abs_path), ev)
    else
      let ev := ev ++ [FSEvent.hostIsFile final_path]
      if fs.isfile final_path then
        let ev := ev ++ [FSEvent.hostGetSize final_path]
        if fs.getsize final_path > 1024 * 1024 then
          (.httpError 400 "File too large to view (max 1MB)", ev)
        else
          let ev := ev ++ [FSEvent.hostRead final_path]
          match fs.readText final_path with
          | .ok content => (.fileContent content, ev)
          | .decodeErr => (.httpError 400 "Binary file not supported", ev)
          | .ioErr m => (.httpError 500 ("Error reading file: " ++ m), ev)
      else
        let ev := ev ++ [FSEvent.hostIsDir final_path]
        if fs.isdir final_path = false then
          (.httpError 400 "Path is not a directory", ev)
        else
          let ev := ev ++ [FSEvent.hostScanDir final_path]
          (.listing (hostListing (fs.scandir final_path)), ev)

/-- Map an uncaught exception of the prober to the endpoint's generic
500 handler (`except Exception as e`). -/
def mapCrash (detailStart : String) : GetResult → GetResult
  | .crash m => .httpError 500 (detailStart ++ m)
  | r => r

/-- The body of `get_container_files` after path validation
(lines 646-754). -/
def get_files_core (hostRoot : String) (fs : HostFS) (c : ContainerOracle)
    (mounts : List Mount) (path : String) : GetResult × List FSEvent :=
  let path_clean := pyRStripSlash path
  match bestMatch mounts path_clean with
  | none =>
    let r := list_files_via_exec c path mounts
    (mapCrash "Error listing files: " r.1, r.2)
  | some best => getHostMatched hostRoot fs best path

/-- `GET /containers/{id}/files` (lines 634-754): reject a non-absolute
path, then resolve the mount and dispatch. -/
def get_container_files (hostRoot : String) (fs : HostFS) (c : ContainerOracle)
    (mounts : List Mount) (path : String) : GetResult × List FSEvent :=
  if path = "" ∨ pyStartsWith path "/" = false then
    (.httpError 400 "Path must be absolute (e.g., /data)", [])
  else get_files_core hostRoot fs c mounts path

/-- The unmatched-path tail of `download_container_file`
(lines 215-227): stream the path from inside the container as a tar
archive named after the path's basename. -/
def downloadArchive (c : ContainerOracle) (path : String) (ev : List FSEvent) :
    DownloadResult × List FSEvent :=
  let ev := ev ++ [FSEvent.getArchive path]
  match c.getArchive path with
  | .found => (.archiveStream (basename path ++ ".tar"), ev)
  | .notFound => (.httpError 404 "File not found inside container", ev)
  | .failure m => (.httpError 500 ("Error retrieving file from container: " ++ m), ev)

/-- The body of `download_container_file` after path validation
(lines 172-227). -/
def download_core (hostRoot : String) (fs : HostFS) (c : ContainerOracle)
    (mounts : List Mount) (path : String) : DownloadResult × List FSEvent :=
  let path_clean := pyRStripSlash path
  match bestMatch mounts path_clean with
  | some best =>
    let mount_source := best.source
    let mount_dest_clean := pyRStripSlash (best.destination.getD "")
    let relative_path := resolveRelative mount_dest_clean path_clean
    let final_path := hostFinalPath hostRoot mount_source mount_dest_clean path_clean
    if hasDotDotSegment relative_path then
      (.httpError 403 "Path traversal detected", [])
    else
      let ev := [FSEvent.hostExists final_path]
      if fs.pathExists final_path then
        let ev := ev ++ [FSEvent.hostIsDir final_path]
        if fs.isdir final_path then
          (.httpError 400 "Cannot download directory directly. Please specify a file.", ev)
        else (.fileResponse final_path (basename path), ev)
      else downloadArchive c path ev
  | none => downloadArchive c path []

/-- `GET /containers/{id}/download` (lines 161-236). -/
def download_container_file (hostRoot : String) (fs : HostFS) (c : ContainerOracle)
    (mounts : List Mount) (path : String) : DownloadResult × List FSEvent :=
  if path = "" ∨ pyStartsWith path "/" = false then
    (.httpError 400 "Path must be absolute (e.g., /data/config.json)", [])
  else download_core hostRoot fs c mounts path

/-- The body of `update_container_file` after path validation
(lines 551-623).  Unlike the two read endpoints, the matched branch
computes `os.path.join(mount_source, relative_path)` in the
exact-match case as well. -/
def update_core (hostRoot : String) (fs : HostFS) (c : ContainerOracle)
    (mounts : List Mount) (path content : String) (now : Nat) :
    WriteResult × List FSEvent :=
  let path_clean := pyRStripSlash path
  match bestMatch mounts path_clean with
  | some best =>
    let mount_source := best.source
    let mount_dest_clean := pyRStripSlash (best.destination.getD "")
    let relative_path := resolveRelative mount_dest_clean path_clean
    let host_abs_path := osJoin mount_source relative_path
    let final_path := osJoin hostRoot (pyLStripSlash host_abs_path)
    if hasDotDotSegment relative_path then
      (.httpError 403 "Path traversal detected", [])
    else
      let parent_dir := dirname final_path
      let ev := [FSEvent.hostExists parent_dir]
      if fs.pathExists parent_dir = false then
        (.httpError 404 ("Parent directory not found on host: " ++ parent_dir), ev)
      else
        let ev := ev ++ [FSEvent.hostWrite final_path content]
        match fs.writeText final_path content with
        | none => (.success ("File " ++ path ++ " updated successfully (via mount)"), ev)
        | some m => (.httpError 500 ("Error writing to host file: " ++ m), ev)
  | none =>
    let parent_dir_container := dirname path
    let checkCmd := testDirCmd parent_dir_container
    let r := c.execRun checkCmd
    let ev := [FSEvent.execRun checkCmd]
    if r.1 ≠ 0 then
      (.httpError 404 ("Parent directory does not exist inside container: " ++
        parent_dir_container), ev)
    else
      let tar_data := create_file_tar (basename path) content now
      let ev := ev ++ [FSEvent.putArchive parent_dir_container tar_data]
      match c.putArchive parent_dir_container with
      | none => (.success ("File " ++ path ++ " updated successfully (via docker exec)"), ev)
      | some e => (.httpError 500 ("Error updating file inside container: " ++ e), ev)

/-- `PUT /containers/{id}/files` (lines 541-632). -/
def update_container_file (hostRoot : String) (fs : HostFS) (c : ContainerOracle)
    (mounts : List Mount) (path content : String) (now : Nat) :
    WriteResult × List FSEvent :=
  if path = "" ∨ pyStartsWith path "/" = false then
    (.httpError 400 "Path must be absolute (e.g., /data/config.json)", [])
  else update_core hostRoot fs c mounts path content now

/-! ## Properties of mount resolution -/

/-- `resolveStep` restated through `mountMatches` and `destCleanLen`. -/
theorem resolveStep_eq (p : String) (best : Option Mount) (m : Mount) :
    resolveStep p best m =
      if mountMatches p m = true then
        match best with
        | none => some m
        | some b => if destCleanLen b < destCleanLen m then some m else best
      else best := by
  cases hd : m.destination with
  | none => simp [resolveStep, mountMatches, hd]
  | some dest =>
    by_cases h0 : dest = ""
    · simp [resolveStep, mountMatches, hd, h0]
    · by_cases hm : p = pyRStripSlash dest ∨ pyStartsWith p (pyRStripSlash dest ++ "/") = true
      · cases best with
        | none =>
          simp [resolveStep, mountMatches, hd, h0, hm]
        | some b =>
          simp only [resolveStep, mountMatches, hd, h0, destCleanLen, Option.getD_some]
          simp [hm, gt_iff_lt, decide_eq_true_eq]
      · simp [resolveStep, mountMatches, hd, h0, hm]

/-- A step that produces `some b` either selected the new eligible
mount or kept the accumulator. -/
theorem resolveStep_some (p : String) (acc : Option Mount) (x b : Mount)
    (h : resolveStep p acc x = some b) :
    (b = x ∧ mountMatches p x = true) ∨ acc = some b := by
  rw [resolveStep_eq] at h
  by_cases hm : mountMatches p x = true
  · rw [if_pos hm] at h
    cases acc with
    | none => exact Or.inl ⟨(Option.some.injEq _ _ ▸ h).symm, hm⟩
    | some a =>
      by_cases hlt : destCleanLen a < destCleanLen x
      · simp only [hlt, if_pos, if_true] at h
        exact Or.inl ⟨(Option.some.injEq _ _ ▸ h).symm, hm⟩
      · simp only [hlt, if_false] at h
        exact Or.inr h
  · rw [if_neg hm] at h
    exact Or.inr h

/-- A step that produces `none` started from `none` and saw an
ineligible mount. -/
theorem resolveStep_none (p : String) (acc : Option Mount) (x : Mount)
    (h : resolveStep p acc x = none) : acc = none ∧ mountMatches p x = false := by
  rw [resolveStep_eq] at h
  by_cases hm : mountMatches p x = true
  · rw [if_pos hm] at h
    cases acc with
    | none => cases h
    | some a =>
      by_cases hlt : destCleanLen a < destCleanLen x
      · simp [hlt] at h
      · simp [hlt] at h
  · rw [if_neg hm] at h
    exact ⟨h, Bool.eq_false_iff.mpr hm⟩

/-- A step never shortens the accumulated destination length. -/
theorem resolveStep_mono_acc (p : String) (acc : Option Mount) (x a : Mount)
    (ha : acc = some a) :
    ∃ b, resolveStep p acc x = some b ∧ destCleanLen a ≤ destCleanLen b := by
  subst ha
  rw [resolveStep_eq]
  by_cases hm : mountMatches p x = true
  · by_cases hlt : destCleanLen a < destCleanLen x
    · exact ⟨x, by simp [hm, hlt], Nat.le_of_lt hlt⟩
    · exact ⟨a, by simp [hm, hlt], Nat.le_refl _⟩
  · exact ⟨a, by simp [hm], Nat.le_refl _⟩

/-- After stepping over an eligible mount the accumulator holds a
mount whose destination is at least as long. -/
theorem resolveStep_mono_new (p : String) (acc : Option Mount) (x : Mount)
    (hx : mountMatches p x = true) :
    ∃ b, resolveStep p acc x = some b ∧ destCleanLen x ≤ destCleanLen b := by
  rw [resolveStep_eq]
  cases acc with
  | none => exact ⟨x, by simp [hx], Nat.le_refl _⟩
  | some a =>
    by_cases hlt : destCleanLen a < destCleanLen x
    · exact ⟨x, by simp [hx, hlt], Nat.le_refl _⟩
    · exact ⟨a, by simp [hx, hlt], Nat.le_of_not_lt hlt⟩

/-- Invariant of the best-match fold: a produced mount is an eligible
element (or the initial accumulator) whose cleaned destination is at
least as long as that of every eligible mount seen; a `none` result
means nothing was eligible. -/
theorem foldl_resolve_spec (p : String) (l : List Mount) (acc : Option Mount) :
    (∀ b, l.foldl (resolveStep p) acc = some b →
       ((b ∈ l ∧ mountMatches p b = true) ∨ acc = some b) ∧
       (∀ m ∈ l, mountMatches p m = true → destCleanLen m ≤ destCleanLen b) ∧
       (∀ a, acc = some a → destCleanLen a ≤ destCleanLen b)) ∧
    (l.foldl (resolveStep p) acc = none →
       acc = none ∧ ∀ m ∈ l, mountMatches p m = false) := by
  induction l generalizing acc with
  | nil =>
    refine ⟨fun b hb => ?_, fun h => ⟨by simpa using h, by simp⟩⟩
    simp only [List.foldl_nil] at hb
    exact ⟨Or.inr hb, by simp, fun a ha => by
      rw [hb] at ha
      cases ha
      exact Nat.le_refl _⟩
  | cons x xs ih =>
    constructor
    · intro b hb
      rw [List.foldl_cons] at hb
      obtain ⟨hmem, hmax, hacc⟩ := (ih (resolveStep p acc x)).1 b hb
      refine ⟨?_, ?_, ?_⟩
      · rcases hmem with ⟨hbxs, hbm⟩ | hstep
        · exact Or.inl ⟨List.mem_cons_of_mem _ hbxs, hbm⟩
        · rcases resolveStep_some p acc x b hstep with ⟨rfl, hxm⟩ | hacc'
          · exact Or.inl ⟨List.mem_cons_self _ _, hxm⟩
          · exact Or.inr hacc'
      · intro m hm hmm
        rcases List.mem_cons.mp hm with rfl | hm'
        · obtain ⟨b', hb', hle⟩ := resolveStep_mono_new p acc m hmm
          exact Nat.le_trans hle (hacc b' hb')
        · exact hmax m hm' hmm
      · intro a ha
        obtain ⟨b', hb', hle⟩ := resolveStep_mono_acc p acc x a ha
        exact Nat.le_trans hle (hacc b' hb')
    · intro hnone
      rw [List.foldl_cons] at hnone
      obtain ⟨hacc', hxs⟩ := (ih (resolveStep p acc x)).2 hnone
      obtain ⟨haccn, hxm⟩ := resolveStep_none p acc x hacc'
      refine ⟨haccn, fun m hm => ?_⟩
      rcases List.mem_cons.mp hm with rfl | h'
      · exact hxm
      · exact hxs m h'

/-- A selected mount is eligible (helper shared by later proofs). -/
theorem bestMatch_matches (mounts : List Mount) (pathClean : String) (m : Mount)
    (h : bestMatch mounts pathClean = some m) : mountMatches pathClean m = true := by
  obtain ⟨hmem, _, _⟩ := (foldl_resolve_spec pathClean mounts none).1 m h
  rcases hmem with ⟨_, hm⟩ | hc
  · exact hm
  · cases hc

/-- The characters of a literal string construction. -/
@[simp] theorem data_mk (l : List Char) : (String.mk l).data = l := rfl

@[simp] theorem data_pyDrop (s : String) (n : Nat) :
    (pyDrop s n).data = s.data.drop n := rfl

@[simp] theorem data_pyLStripSlash (s : String) :
    (pyLStripSlash s).data = s.data.dropWhile (fun c => c == '/') := rfl

@[simp] theorem pyLen_eq (s : String) : pyLen s = s.data.length := rfl

/-- The head of a `dropWhile` result does not satisfy the predicate. -/
theorem dropWhile_head?_not (p : Char → Bool) (l : List Char) (c : Char)
    (h : (l.dropWhile p).head? = some c) : p c = false := by
  induction l with
  | nil => simp [List.dropWhile] at h
  | cons x xs ih =>
    by_cases hx : p x
    · rw [List.dropWhile_cons_of_pos hx] at h
      exact ih h
    · rw [List.dropWhile_cons_of_neg hx] at h
      simp only [List.head?_cons, Option.some.injEq] at h
      subst h
      exact Bool.eq_false_iff.mpr hx

/-- A trailing-slash-stripped string does not end with `/`. -/
theorem pyRStripSlash_last_not_slash (s : String) (c : Char)
    (h : (pyRStripSlash s).data.reverse.head? = some c) : (c == '/') = false := by
  unfold pyRStripSlash at h
  rw [data_mk, List.reverse_reverse] at h
  exact dropWhile_head?_not (fun c => c == '/') s.data.reverse c h

/-- Under a `/`-boundary prefix match that is not an exact match, the
residual relative path is nonempty: the cleaned requested path ends in
a non-`/` character, so stripping the destination prefix and the
leading slashes cannot exhaust it. -/
theorem resolveRelative_ne_empty (dest path : String)
    (hsw : pyStartsWith (pyRStripSlash path) (pyRStripSlash dest ++ "/") = true) :
    resolveRelative (pyRStripSlash dest) (pyRStripSlash path) ≠ "" := by
  have hpre : ((pyRStripSlash dest ++ "/").data).isPrefixOf
      (pyRStripSlash path).data = true := hsw
  rw [ List.isPrefixOf_iff_prefix] at hpre
  obtain ⟨t, ht⟩ := hpre
  rw [String.data_append] at ht
  have hslash : ("/" : String).data = ['/'] := rfl
  rw [hslash] at ht
  have hP : (pyRStripSlash path).data = (pyRStripSlash dest).data ++ '/' :: t := by
    rw [← ht, List.append_assoc, List.singleton_append]
  have hneq : pyRStripSlash path ≠ pyRStripSlash dest := by
    intro he
    have hlen : (pyRStripSlash path).data.length = (pyRStripSlash dest).data.length := by
      rw [he]
    rw [hP] at hlen
    simp at hlen
  unfold resolveRelative
  rw [if_neg hneq]
  intro hempty
  have hdata : ((pyRStripSlash path).data.drop
      (pyRStripSlash dest).data.length).dropWhile (fun c => c == '/') = [] := by
    have := congrArg String.data hempty
    simpa using this
  rw [hP, List.drop_left, List.dropWhile_cons_of_pos (by decide)] at hdata
  rw [List.dropWhile_eq_nil_iff] at hdata
  rcases List.eq_nil_or_concat t with rfl | ⟨t0, c0, rfl⟩
  · have hh : (pyRStripSlash path).data.reverse.head? = some '/' := by
      rw [hP]
      simp
    have := pyRStripSlash_last_not_slash path '/' hh
    simp at this
  · have hc0 : (c0 == '/') = true := by
      simpa using hdata c0 (by simp)
    have hh : (pyRStripSlash path).data.reverse.head? = some c0 := by
      rw [hP]
      simp
    have := pyRStripSlash_last_not_slash path c0 hh
    rw [hc0] at this
    cases this

/-! ## Claims about mount resolution and path mapping -/

/-- Claim C2: for every mount list and cleaned absolute path (trailing
slashes stripped from the path and from each destination), the shared
best-match loop selects, among all mounts whose destination equals the
path or is a `/`-boundary prefix of it, one with the longest
normalized destination string; being a pure fold over the mount list,
the choice is a deterministic function of the mount list and path,
also when several eligible mounts have equal-length destinations. -/
theorem resolve_selects_longest_destination (mounts : List Mount) (pathClean : String) :
    (∀ m, bestMatch mounts pathClean = some m →
       m ∈ mounts ∧ mountMatches pathClean m = true ∧
       ∀ m' ∈ mounts, mountMatches pathClean m' = true →
         destCleanLen m' ≤ destCleanLen m) ∧
    (bestMatch mounts pathClean = none →
       ∀ m' ∈ mounts, mountMatches pathClean m' = false) := by
  have h := foldl_resolve_spec pathClean mounts none
  refine ⟨fun m hm => ?_, fun hn => (h.2 hn).2⟩
  obtain ⟨hmem, hmax, _⟩ := h.1 m hm
  rcases hmem with ⟨h1, h2⟩ | h3
  · exact ⟨h1, h2, hmax⟩
  · cases h3

/-- Scenario-B mounts used as concrete witnesses. -/
def mB1 : Mount := ⟨"/srv/app", some "/data"⟩

def mB2 : Mount := ⟨"/srv/app/sub", some "/data/sub"⟩

theorem resolve_selects_longest_destination_witness :
    bestMatch [mB1, mB2] "/data/sub/x.txt" = some mB2 ∧
    mB2 ∈ [mB1, mB2] ∧ mountMatches "/data/sub/x.txt" mB2 = true ∧
    destCleanLen mB1 ≤ destCleanLen mB2 :=
  have h := (resolve_selects_longest_destination [mB1, mB2] "/data/sub/x.txt").1
    mB2 (by decide)
  ⟨by decide, h.1, h.2.1, h.2.2 mB1 (by decide) (by decide)⟩

/-- Claim C3: for every matched mount and requested path, the residual
relative path is empty on an exact (normalized) destination match and
otherwise is the cleaned path with the destination prefix and the
leading slashes stripped; and the computed host path equals the
specified mapping formula `join(hostRoot, strip-leading-slash(
join(mount.source, relativePath)))`.  Instantiated at Scenario A by
the accompanying witness. -/
theorem relative_path_and_host_mapping (mounts : List Mount) (path : String) (m : Mount)
    (h : bestMatch mounts (pyRStripSlash path) = some m) :
    (pyRStripSlash path = pyRStripSlash (m.destination.getD "") →
       resolveRelative (pyRStripSlash (m.destination.getD "")) (pyRStripSlash path) = "") ∧
    (pyRStripSlash path ≠ pyRStripSlash (m.destination.getD "") →
       resolveRelative (pyRStripSlash (m.destination.getD "")) (pyRStripSlash path)
         = pyLStripSlash (pyDrop (pyRStripSlash path)
             (pyLen (pyRStripSlash (m.destination.getD ""))))) ∧
    (∀ hostRoot,
       hostFinalPath hostRoot m.source (pyRStripSlash (m.destination.getD ""))
           (pyRStripSlash path)
         = mapToHostSpec hostRoot m.source
             (resolveRelative (pyRStripSlash (m.destination.getD ""))
               (pyRStripSlash path))) := by
  have hm := bestMatch_matches mounts (pyRStripSlash path) m h
  cases hd : m.destination with
  | none => simp [mountMatches, hd] at hm
  | some dest =>
    simp only [mountMatches, hd] at hm
    by_cases h0 : dest = ""
    · simp [h0] at hm
    · rw [if_neg h0] at hm
      have helig : pyRStripSlash path = pyRStripSlash dest ∨
          pyStartsWith (pyRStripSlash path) (pyRStripSlash dest ++ "/") = true := by
        simpa [decide_eq_true_eq] using hm
      simp only [Option.getD_some]
      refine ⟨fun he => ?_, fun hne => ?_, fun hostRoot => ?_⟩
      · simp [resolveRelative, he]
      · simp [resolveRelative, hne]
      · have key : hostAbsPathOf m.source (pyRStripSlash dest) (pyRStripSlash path)
            = joinRelSpec m.source
                (resolveRelative (pyRStripSlash dest) (pyRStripSlash path)) := by
          by_cases he : pyRStripSlash path = pyRStripSlash dest
          · have hrel : resolveRelative (pyRStripSlash dest) (pyRStripSlash path) = "" := by
              simp [resolveRelative, he]
            rw [hostAbsPathOf, if_pos he, hrel, joinRelSpec, if_pos rfl]
          · have hsw : pyStartsWith (pyRStripSlash path)
                (pyRStripSlash dest ++ "/") = true := by
              rcases helig with h1 | h2
              · exact absurd h1 he
              · exact h2
            have hrel := resolveRelative_ne_empty dest path hsw
            rw [hostAbsPathOf, if_neg he, joinRelSpec, if_neg hrel]
        rw [hostFinalPath, mapToHostSpec, key]

theorem relative_path_and_host_mapping_witness :
    bestMatch [mB1] (pyRStripSlash "/data/config.json") = some mB1 ∧
    resolveRelative (pyRStripSlash (mB1.destination.getD ""))
      (pyRStripSlash "/data/config.json") = "config.json" ∧
    hostFinalPath "/hostfs" mB1.source (pyRStripSlash (mB1.destination.getD ""))
      (pyRStripSlash "/data/config.json") = "/hostfs/srv/app/config.json" ∧
    hostFinalPath "/hostfs" mB1.source (pyRStripSlash (mB1.destination.getD ""))
        (pyRStripSlash "/data/config.json")
      = mapToHostSpec "/hostfs" mB1.source
          (resolveRelative (pyRStripSlash (mB1.destination.getD ""))
            (pyRStripSlash "/data/config.json")) :=
  ⟨by decide, by decide, by decide,
    (relative_path_and_host_mapping [mB1] "/data/config.json" mB1 (by decide)).2.2 "/hostfs"⟩

/-! ## Claim about the archive writer -/

/-- Claim C9: `create_file_tar` is a pure function of its inputs (the
build clock is passed explicitly; the Lean model can perform no I/O)
whose archive has exactly one entry, named `filename`, with recorded
size equal to the byte length of the UTF-8 encoding of `content` and
modification timestamp equal to the archive-build time. -/
theorem create_file_tar_single_entry (filename content : String) (now : Nat) :
    (create_file_tar filename content now).length = 1 ∧
    ∀ e ∈ create_file_tar filename content now,
      e.name = filename ∧ e.size = content.utf8ByteSize ∧ e.mtime = now := by
  refine ⟨rfl, fun e he => ?_⟩
  simp only [create_file_tar, List.mem_singleton] at he
  subst he
  exact ⟨rfl, rfl, rfl⟩

theorem create_file_tar_single_entry_witness :
    (create_file_tar "config.json" "hello" 99).length = 1 ∧
    ({ name := "config.json", size := 5, mtime := 99, data := "hello" } : TarEntry)
        ∈ create_file_tar "config.json" "hello" 99 ∧
    ({ name := "config.json", size := 5, mtime := 99, data := "hello" } : TarEntry).name
        = "config.json" ∧
    (5 : Nat) = ("hello" : String).utf8ByteSize :=
  have h := (create_file_tar_single_entry "config.json" "hello" 99).2
    { name := "config.json", size := 5, mtime := 99, data := "hello" } (by decide)
  ⟨(create_file_tar_single_entry "config.json" "hello" 99).1, by decide, h.1, h.2.1⟩

/-! ## Claim about the traversal guard -/

/-- Claim C1: for every mount list and every relative path derived by
mount resolution, if any `/`-separated segment of the relative path
equals `..` exactly, then each of the three operations (get, download,
write) fails with HTTP 403 `Path traversal detected`, and its event
trace is empty: the failure precedes every host-filesystem and
container access. -/
theorem traversal_rejected_before_io
    (hostRoot : String) (fs : HostFS) (c : ContainerOracle) (mounts : List Mount)
    (path content : String) (now : Nat) (m : Mount)
    (habs : pyStartsWith path "/" = true)
    (hmatch : bestMatch mounts (pyRStripSlash path) = some m)
    (hdd : hasDotDotSegment (resolveRelative (pyRStripSlash (m.destination.getD ""))
      (pyRStripSlash path)) = true) :
    get_container_files hostRoot fs c mounts path
        = (.httpError 403 "Path traversal detected", []) ∧
    download_container_file hostRoot fs c mounts path
        = (.httpError 403 "Path traversal detected", []) ∧
    update_container_file hostRoot fs c mounts path content now
        = (.httpError 403 "Path traversal detected", []) := by
  have hne : path ≠ "" := by
    intro he
    subst he
    exact absurd habs (by decide)
  have hvalid : ¬(path = "" ∨ pyStartsWith path "/" = false) := by
    rintro (h1 | h2)
    · exact hne h1
    · rw [habs] at h2
      cases h2
  refine ⟨?_, ?_, ?_⟩
  · rw [get_container_files, if_neg hvalid]
    simp only [get_files_core, hmatch, getHostMatched, hdd, if_true]
  · rw [download_container_file, if_neg hvalid]
    simp only [download_core, hmatch, hdd, if_true]
  · rw [update_container_file, if_neg hvalid]
    simp only [update_core, hmatch, hdd, if_true]

/-- Trivial host-filesystem oracle for witnesses. -/
def wFS : HostFS :=
  ⟨fun _ => true, fun _ => true, fun _ => false, fun _ => 0,
   fun _ => .ok "", fun _ _ => none, fun _ => []⟩

/-- Trivial container oracle for witnesses. -/
def wC : ContainerOracle := ⟨fun _ => (0, .text ""), fun _ => .found, fun _ => none⟩

theorem traversal_rejected_before_io_witness :
    pyStartsWith "/data/../x" "/" = true ∧
    bestMatch [mB1] (pyRStripSlash "/data/../x") = some mB1 ∧
    hasDotDotSegment (resolveRelative (pyRStripSlash (mB1.destination.getD ""))
      (pyRStripSlash "/data/../x")) = true ∧
    get_container_files "/hostfs" wFS wC [mB1] "/data/../x"
        = (.httpError 403 "Path traversal detected", []) ∧
    update_container_file "/hostfs" wFS wC [mB1] "/data/../x" "hi" 0
        = (.httpError 403 "Path traversal detected", []) :=
  have h := traversal_rejected_before_io "/hostfs" wFS wC [mB1] "/data/../x" "hi" 0 mB1
    (by decide) (by decide) (by decide)
  ⟨by decide, by decide, by decide, h.1, h.2.2⟩

/-! ## Claims about validation and the download/write flows -/

/-- Container oracle in which every command fails with output `err`
and no archive can be retrieved. -/
def cFail : ContainerOracle :=
  ⟨fun _ => (1, .text "err"), fun _ => .notFound, fun _ => none⟩

/-- Claim C4 counterexample: at the concrete input
`path = "/../etc/passwd"`, `mounts = []`, the operation is not
rejected with the InvalidPath error — the path passes the
`startswith("/")` validation, mount resolution runs, and the
in-container prober is consulted (the trace is nonempty), its
not-found failure being what is returned. -/
theorem invalid_path_scenario_counterexample :
    (get_container_files "/hostfs" wFS cFail [] "/../etc/passwd").1
        = .httpError 404 "Path not found or not accessible inside container: err" ∧
    (get_container_files "/hostfs" wFS cFail [] "/../etc/passwd").1
        ≠ .httpError 400 "Path must be absolute (e.g., /data)" ∧
    (get_container_files "/hostfs" wFS cFail [] "/../etc/passwd").2 ≠ [] := by
  decide

/-- Claim C4 (amended): the request path `/../etc/passwd` is accepted
by the bridge's input-validation step — validation checks only that
the path is nonempty and starts with `/` and performs no
normalization — so for every host state, container state and mount
configuration each of the three operations proceeds past validation
into its post-validation core, where mount resolution runs. -/
theorem slash_dotdot_path_passes_validation
    (hostRoot : String) (fs : HostFS) (c : ContainerOracle) (mounts : List Mount)
    (content : String) (now : Nat) :
    get_container_files hostRoot fs c mounts "/../etc/passwd"
        = get_files_core hostRoot fs c mounts "/../etc/passwd" ∧
    download_container_file hostRoot fs c mounts "/../etc/passwd"
        = download_core hostRoot fs c mounts "/../etc/passwd" ∧
    update_container_file hostRoot fs c mounts "/../etc/passwd" content now
        = update_core hostRoot fs c mounts "/../etc/passwd" content now := by
  have hvalid : ¬(("/../etc/passwd" : String) = ""
      ∨ pyStartsWith "/../etc/passwd" "/" = false) := by decide
  exact ⟨by rw [get_container_files, if_neg hvalid],
         by rw [download_container_file, if_neg hvalid],
         by rw [update_container_file, if_neg hvalid]⟩

/-- Claim C10: for every download request where a mount matches but
the resolved host path does not exist under the host-filesystem root,
the operation does not fail with a host-side not-found: after the
single existence probe it falls through to in-container archive
retrieval, returning the archive stream when the path exists inside
the container and the in-container not-found error only when it does
not. -/
theorem download_missing_host_path_falls_through
    (hostRoot : String) (fs : HostFS) (c : ContainerOracle) (mounts : List Mount)
    (path : String) (m : Mount)
    (habs : pyStartsWith path "/" = true)
    (hmatch : bestMatch mounts (pyRStripSlash path) = some m)
    (hnodd : hasDotDotSegment (resolveRelative (pyRStripSlash (m.destination.getD ""))
      (pyRStripSlash path)) = false)
    (hnex : fs.pathExists (hostFinalPath hostRoot m.source
      (pyRStripSlash (m.destination.getD "")) (pyRStripSlash path)) = false) :
    (c.getArchive path = .found →
       download_container_file hostRoot fs c mounts path
         = (.archiveStream (basename path ++ ".tar"),
            [FSEvent.hostExists (hostFinalPath hostRoot m.source
               (pyRStripSlash (m.destination.getD "")) (pyRStripSlash path)),
             FSEvent.getArchive path])) ∧
    (c.getArchive path = .notFound →
       download_container_file hostRoot fs c mounts path
         = (.httpError 404 "File not found inside container",
            [FSEvent.hostExists (hostFinalPath hostRoot m.source
               (pyRStripSlash (m.destination.getD "")) (pyRStripSlash path)),
             FSEvent.getArchive path])) := by
  have hne : path ≠ "" := by
    intro he
    subst he
    exact absurd habs (by decide)
  have hvalid : ¬(path = "" ∨ pyStartsWith path "/" = false) := by
    rintro (h1 | h2)
    · exact hne h1
    · rw [habs] at h2
      cases h2
  constructor
  · intro hfound
    rw [download_container_file, if_neg hvalid]
    simp only [download_core, hmatch, hnodd, Bool.false_eq_true, if_false,
      hnex, downloadArchive, hfound, List.singleton_append]
  · intro hnf
    rw [download_container_file, if_neg hvalid]
    simp only [download_core, hmatch, hnodd, Bool.false_eq_true, if_false,
      hnex, downloadArchive, hnf, List.singleton_append]

/-- Host oracle for which the witness path does not exist. -/
def wFSmissing : HostFS :=
  ⟨fun _ => false, fun _ => false, fun _ => false, fun _ => 0,
   fun _ => .ok "", fun _ _ => none, fun _ => []⟩

theorem download_missing_host_path_falls_through_witness :
    pyStartsWith "/data/gone.txt" "/" = true ∧
    bestMatch [mB1] (pyRStripSlash "/data/gone.txt") = some mB1 ∧
    wFSmissing.pathExists (hostFinalPath "/hostfs" mB1.source
      (pyRStripSlash (mB1.destination.getD "")) (pyRStripSlash "/data/gone.txt")) = false ∧
    download_container_file "/hostfs" wFSmissing cFail [mB1] "/data/gone.txt"
        = (.httpError 404 "File not found inside container",
           [FSEvent.hostExists "/hostfs/srv/app/gone.txt",
            FSEvent.getArchive "/data/gone.txt"]) :=
  have h := (download_missing_host_path_falls_through "/hostfs" wFSmissing cFail [mB1]
    "/data/gone.txt" mB1 (by decide) (by decide) (by decide) (by decide)).2 (by decide)
  ⟨by decide, by decide, by decide, by rw [h]; decide⟩

/-- Claim C7: for every download request whose matched mount resolves
to an existing host directory, the operation is rejected with the
explicit `Cannot download directory directly` error; for every request
that no mount matches, the file is fetched from inside the container
as an archive stream whose attachment name is the path's basename
suffixed with `.tar`, and a path absent inside the container yields
the in-container not-found error. -/
theorem download_directory_rejected_and_archive_naming
    (hostRoot : String) (fs : HostFS) (c : ContainerOracle) (mounts : List Mount)
    (path : String)
    (habs : pyStartsWith path "/" = true) :
    (∀ m, bestMatch mounts (pyRStripSlash path) = some m →
       hasDotDotSegment (resolveRelative (pyRStripSlash (m.destination.getD ""))
         (pyRStripSlash path)) = false →
       fs.pathExists (hostFinalPath hostRoot m.source
         (pyRStripSlash (m.destination.getD "")) (pyRStripSlash path)) = true →
       fs.isdir (hostFinalPath hostRoot m.source
         (pyRStripSlash (m.destination.getD "")) (pyRStripSlash path)) = true →
       (download_container_file hostRoot fs c mounts path).1
         = .httpError 400 "Cannot download directory directly. Please specify a file.") ∧
    (bestMatch mounts (pyRStripSlash path) = none →
       (c.getArchive path = .found →
          download_container_file hostRoot fs c mounts path
            = (.archiveStream (basename path ++ ".tar"), [FSEvent.getArchive path])) ∧
       (c.getArchive path = .notFound →
          download_container_file hostRoot fs c mounts path
            = (.httpError 404 "File not found inside container",
               [FSEvent.getArchive path]))) := by
  have hne : path ≠ "" := by
    intro he
    subst he
    exact absurd habs (by decide)
  have hvalid : ¬(path = "" ∨ pyStartsWith path "/" = false) := by
    rintro (h1 | h2)
    · exact hne h1
    · rw [habs] at h2
      cases h2
  constructor
  · intro m hmatch hnodd hex hdir
    rw [download_container_file, if_neg hvalid]
    simp only [download_core, hmatch, hnodd, Bool.false_eq_true, if_false,
      hex, hdir, if_true, List.singleton_append]
  · intro hnone
    constructor
    · intro hfound
      rw [download_container_file, if_neg hvalid]
      simp only [download_core, hnone, downloadArchive, hfound, List.nil_append]
    · intro hnf
      rw [download_container_file, if_neg hvalid]
      simp only [download_core, hnone, downloadArchive, hnf, List.nil_append]

/-- Host oracle in which every path is an existing directory. -/
def wFSdir : HostFS :=
  ⟨fun _ => true, fun _ => false, fun _ => true, fun _ => 0,
   fun _ => .ok "", fun _ _ => none, fun _ => []⟩

theorem download_directory_rejected_and_archive_naming_witness :
    bestMatch [mB1] (pyRStripSlash "/data/sub") = some mB1 ∧
    wFSdir.isdir (hostFinalPath "/hostfs" mB1.source
      (pyRStripSlash (mB1.destination.getD "")) (pyRStripSlash "/data/sub")) = true ∧
    (download_container_file "/hostfs" wFSdir cFail [mB1] "/data/sub").1
        = .httpError 400 "Cannot download directory directly. Please specify a file." ∧
    download_container_file "/hostfs" wFSdir wC [] "/etc/nginx/nginx.conf"
        = (.archiveStream ("nginx.conf" ++ ".tar"), [FSEvent.getArchive "/etc/nginx/nginx.conf"]) ∧
    download_container_file "/hostfs" wFSdir cFail [] "/etc/nginx/nginx.conf"
        = (.httpError 404 "File not found inside container",
           [FSEvent.getArchive "/etc/nginx/nginx.conf"]) :=
  have h1 := (download_directory_rejected_and_archive_naming "/hostfs" wFSdir cFail [mB1]
    "/data/sub" (by decide)).1 mB1 (by decide) (by decide) (by decide) (by decide)
  have h2 := (download_directory_rejected_and_archive_naming "/hostfs" wFSdir wC []
    "/etc/nginx/nginx.conf" (by decide)).2 (by decide)
  have h3 := (download_directory_rejected_and_archive_naming "/hostfs" wFSdir cFail []
    "/etc/nginx/nginx.conf" (by decide)).2 (by decide)
  ⟨by decide, by decide, h1, by rw [h2.1 (by decide)]; decide, h3.2 (by decide)⟩

/-- Claim C8: for every write to a path that no mount matches, the
bridge first verifies through the in-container `test -d` probe that
the path's parent directory exists inside the container; when it does
not, the operation fails with the distinct parent-directory-missing
error (status 404, not the 500 upload error), and the trace contains
only that probe — no archive upload; only when the probe succeeds is
the single-file archive built and uploaded into that parent
directory. -/
theorem write_unmatched_checks_parent_first
    (hostRoot : String) (fs : HostFS) (c : ContainerOracle) (mounts : List Mount)
    (path content : String) (now : Nat)
    (habs : pyStartsWith path "/" = true)
    (hnone : bestMatch mounts (pyRStripSlash path) = none) :
    ((c.execRun (testDirCmd (dirname path))).1 ≠ 0 →
       update_container_file hostRoot fs c mounts path content now
         = (.httpError 404 ("Parent directory does not exist inside container: "
              ++ dirname path),
            [FSEvent.execRun (testDirCmd (dirname path))]) ∧
       ∀ e, (update_container_file hostRoot fs c mounts path content now).1
         ≠ .httpError 500 ("Error updating file inside container: " ++ e)) ∧
    ((c.execRun (testDirCmd (dirname path))).1 = 0 → c.putArchive (dirname path) = none →
       update_container_file hostRoot fs c mounts path content now
         = (.success ("File " ++ path ++ " updated successfully (via docker exec)"),
            [FSEvent.execRun (testDirCmd (dirname path)),
             FSEvent.putArchive (dirname path)
               (create_file_tar (basename path) content now)])) := by
  have hne : path ≠ "" := by
    intro he
    subst he
    exact absurd habs (by decide)
  have hvalid : ¬(path = "" ∨ pyStartsWith path "/" = false) := by
    rintro (h1 | h2)
    · exact hne h1
    · rw [habs] at h2
      cases h2
  constructor
  · intro hfail
    have heq : update_container_file hostRoot fs c mounts path content now
        = (.httpError 404 ("Parent directory does not exist inside container: "
             ++ dirname path),
           [FSEvent.execRun (testDirCmd (dirname path))]) := by
      rw [update_container_file, if_neg hvalid]
      simp only [update_core, hnone, if_pos hfail]
    refine ⟨heq, fun e => ?_⟩
    rw [heq]
    simp
  · intro hok hput
    rw [update_container_file, if_neg hvalid]
    simp only [update_core, hnone, hok, ne_eq, not_true_eq_false, if_false,
      hput, List.singleton_append]

theorem write_unmatched_checks_parent_first_witness :
    bestMatch [] (pyRStripSlash "/a/b.txt") = none ∧
    (cFail.execRun (testDirCmd (dirname "/a/b.txt"))).1 ≠ 0 ∧
    update_container_file "/hostfs" wFS cFail [] "/a/b.txt" "hi" 7
        = (.httpError 404 "Parent directory does not exist inside container: /a",
           [FSEvent.execRun "test -d '/a'"]) ∧
    update_container_file "/hostfs" wFS wC [] "/a/b.txt" "hi" 7
        = (.success "File /a/b.txt updated successfully (via docker exec)",
           [FSEvent.execRun "test -d '/a'",
            FSEvent.putArchive "/a" (create_file_tar "b.txt" "hi" 7)]) :=
  have h1 := (write_unmatched_checks_parent_first "/hostfs" wFS cFail [] "/a/b.txt" "hi" 7
    (by decide) (by decide)).1 (by decide)
  have h2 := (write_unmatched_checks_parent_first "/hostfs" wFS wC [] "/a/b.txt" "hi" 7
    (by decide) (by decide)).2 (by decide) (by decide)
  ⟨by decide, by decide, by rw [h1.1]; decide, by rw [h2]; decide⟩

/-! ## Claim about the 1 MiB text-read boundary -/

/-- Claim C5: for every file read as text via get — through a matched
mount's host path or through the in-container prober — a file whose
reported size is exactly 1 MiB (1048576 bytes) is returned as content,
a file of 1 MiB + 1 byte fails with the too-large error, and content
that does not decode as UTF-8 fails with the binary-not-supported
error instead of being transcoded. -/
theorem text_read_one_mib_boundary
    (hostRoot : String) (fs : HostFS) (c : ContainerOracle) (mounts : List Mount)
    (path : String) (m : Mount)
    (habs : pyStartsWith path "/" = true)
    (hmatch : bestMatch mounts (pyRStripSlash path) = some m)
    (hnodd : hasDotDotSegment (resolveRelative (pyRStripSlash (m.destination.getD ""))
      (pyRStripSlash path)) = false)
    (hex : fs.pathExists (hostFinalPath hostRoot m.source
      (pyRStripSlash (m.destination.getD "")) (pyRStripSlash path)) = true)
    (hf : fs.isfile (hostFinalPath hostRoot m.source
      (pyRStripSlash (m.destination.getD "")) (pyRStripSlash path)) = true) :
    (fs.getsize (hostFinalPath hostRoot m.source
        (pyRStripSlash (m.destination.getD "")) (pyRStripSlash path)) = 1048576 →
       ∀ content, fs.readText (hostFinalPath hostRoot m.source
           (pyRStripSlash (m.destination.getD "")) (pyRStripSlash path)) = .ok content →
         (get_container_files hostRoot fs c mounts path).1 = .fileContent content) ∧
    (fs.getsize (hostFinalPath hostRoot m.source
        (pyRStripSlash (m.destination.getD "")) (pyRStripSlash path)) = 1048577 →
       (get_container_files hostRoot fs c mounts path).1
         = .httpError 400 "File too large to view (max 1MB)") ∧
    (fs.getsize (hostFinalPath hostRoot m.source
        (pyRStripSlash (m.destination.getD "")) (pyRStripSlash path)) = 1048576 →
       fs.readText (hostFinalPath hostRoot m.source
         (pyRStripSlash (m.destination.getD "")) (pyRStripSlash path)) = .decodeErr →
       (get_container_files hostRoot fs c mounts path).1
         = .httpError 400 "Binary file not supported") ∧
    (∀ (c2 : ContainerOracle) (p2 szs : String) (ms2 : List Mount),
       (c2.execRun (testDirCmd p2)).1 ≠ 0 →
       (c2.execRun (testFileCmd p2)).1 = 0 →
       c2.execRun (statSizeCmd p2) = (0, .text szs) →
       ((pyInt? szs = some 1048576 →
           ∀ content, c2.execRun (catCmd p2) = (0, .text content) →
             (list_files_via_exec c2 p2 ms2).1 = .fileContent content) ∧
        (pyInt? szs = some 1048577 →
           (list_files_via_exec c2 p2 ms2).1
             = .httpError 400 "File too large to view (max 1MB)") ∧
        (pyInt? szs = some 1048576 → c2.execRun (catCmd p2) = (0, .binary) →
           (list_files_via_exec c2 p2 ms2).1
             = .httpError 400 "Binary file not supported"))) := by
  have hne : path ≠ "" := by
    intro he
    subst he
    exact absurd habs (by decide)
  have hvalid : ¬(path = "" ∨ pyStartsWith path "/" = false) := by
    rintro (h1 | h2)
    · exact hne h1
    · rw [habs] at h2
      cases h2
  refine ⟨?_, ?_, ?_, ?_⟩
  · intro hsz content hrd
    rw [get_container_files, if_neg hvalid]
    simp only [get_files_core, hmatch, getHostMatched, hnodd, Bool.false_eq_true,
      if_false, hex, hf, if_true, hsz, hrd]
    norm_num
  · intro hsz
    rw [get_container_files, if_neg hvalid]
    simp only [get_files_core, hmatch, getHostMatched, hnodd, Bool.false_eq_true,
      if_false, hex, hf, if_true, hsz]
    norm_num
  · intro hsz hrd
    rw [get_container_files, if_neg hvalid]
    simp only [get_files_core, hmatch, getHostMatched, hnodd, Bool.false_eq_true,
      if_false, hex, hf, if_true, hsz, hrd]
    norm_num
  · intro c2 p2 szs ms2 hd2 hf2 hst
    refine ⟨?_, ?_, ?_⟩
    · intro hsz content hcat
      simp only [list_files_via_exec, hd2, ne_eq, not_false_iff, if_false, hf2,
        if_true, hst, Bytes.decode?, hsz, hcat]
      norm_num
    · intro hsz
      simp only [list_files_via_exec, hd2, ne_eq, not_false_iff, if_false, hf2,
        if_true, hst, Bytes.decode?, hsz]
      norm_num
    · intro hsz hcat
      simp only [list_files_via_exec, hd2, ne_eq, not_false_iff, if_false, hf2,
        if_true, hst, Bytes.decode?, hsz, hcat]
      norm_num

/-- Host oracle with an existing regular file of exactly 1 MiB whose
text content is `hello`. -/
def wFS1MiB : HostFS :=
  ⟨fun _ => true, fun _ => true, fun _ => false, fun _ => 1048576,
   fun _ => .ok "hello", fun _ _ => none, fun _ => []⟩

/-- Container oracle in which `/f` is a regular file of reported size
1048576 whose content is `abc`. -/
def wCread : ContainerOracle :=
  ⟨fun cmd =>
     if cmd = testDirCmd "/f" then (1, .text "")
     else if cmd = testFileCmd "/f" then (0, .text "")
     else if cmd = statSizeCmd "/f" then (0, .text "1048576")
     else if cmd = catCmd "/f" then (0, .text "abc")
     else (1, .text ""),
   fun _ => .notFound, fun _ => none⟩

theorem text_read_one_mib_boundary_witness :
    bestMatch [mB1] (pyRStripSlash "/data/f.txt") = some mB1 ∧
    wFS1MiB.getsize (hostFinalPath "/hostfs" mB1.source
      (pyRStripSlash (mB1.destination.getD "")) (pyRStripSlash "/data/f.txt")) = 1048576 ∧
    (get_container_files "/hostfs" wFS1MiB wCread [mB1] "/data/f.txt").1
        = .fileContent "hello" ∧
    pyInt? "1048576" = some 1048576 ∧
    (list_files_via_exec wCread "/f" []).1 = .fileContent "abc" :=
  have h := text_read_one_mib_boundary "/hostfs" wFS1MiB wCread [mB1] "/data/f.txt" mB1
    (by decide) (by decide) (by decide) (by decide) (by decide)
  ⟨by decide, by decide, h.1 (by decide) "hello" (by decide), by decide,
   (h.2.2.2 wCread "/f" "1048576" [] (by decide) (by decide) (by decide)).1
     (by decide) "abc" (by decide)⟩

/-! ## Claim about the dual-strategy directory parser -/

/-- The first character of a left-concatenated literal. -/
theorem head_of_append (s t : String) (c : Char) (cs : List Char)
    (hs : s.data = c :: cs) : (s ++ t).data.head? = some c := by
  rw [String.data_append, hs]
  rfl

/-- The fallback command string is never the `test -d` probe. -/
theorem lsCmd_ne_testDirCmd (p q : String) : lsCmdFor p ≠ testDirCmd q := by
  intro h
  have h1 : (lsCmdFor p).data.head? = some 'l' :=
    head_of_append "ls -la '" (p ++ "'") 'l' "s -la '".data rfl
  have h2 : (testDirCmd q).data.head? = some 't' :=
    head_of_append "test -d '" (q ++ "'") 't' "est -d '".data rfl
  rw [h, h2] at h1
  cases h1

/-- The fallback command string is never the structured listing
command. -/
theorem lsCmd_ne_statCmd (p q : String) : lsCmdFor p ≠ statCmdFor q := by
  intro h
  have h1 : (lsCmdFor p).data.head? = some 'l' :=
    head_of_append "ls -la '" (p ++ "'") 'l' "s -la '".data rfl
  have h2 : (statCmdFor q).data.head? = some 'f' := by
    unfold statCmdFor
    rw [show ("for f in '" ++ pyRStripSlash q ++
        "'/*; do stat -c '%n|%s|%Y|%F' \"$f\" 2>/dev/null; done")
      = "for f in '" ++ (pyRStripSlash q ++
        "'/*; do stat -c '%n|%s|%Y|%F' \"$f\" 2>/dev/null; done") from by
        rw [String.append_assoc]]
    exact head_of_append "for f in '" _ 'f' "or f in '".data rfl
  rw [h, h2] at h1
  cases h1

/-- The fallback's event trace is the incoming trace extended by
exactly the `ls -la` command, whatever its outcome. -/
theorem fallbackLs_trace (c : ContainerOracle) (path : String)
    (dests : List String) (ev : List FSEvent) :
    (fallbackLs c path dests ev).2 = ev ++ [FSEvent.execRun (lsCmdFor path)] := by
  unfold fallbackLs
  by_cases h : (c.execRun (lsCmdFor path)).1 ≠ 0
  · rw [if_pos h]
    cases (c.execRun (lsCmdFor path)).2.decode? <;> rfl
  · rw [if_neg h]
    cases (c.execRun (lsCmdFor path)).2.decode? <;> rfl

/-- Claim C6 (amended): in the prober's directory listing (primary
command output assumed to decode as text), the ls-based fallback
parser runs if and only if the primary structured command returned a
non-zero exit status or output that is empty after stripping
whitespace — in particular on empty output; if the fallback listing
command itself exits non-zero, the operation fails with the
in-container not-found error carrying that command's output; and for a
directory where the primary strategy yields empty output and the
fallback command succeeds, the fallback's parsed entries are what is
returned. -/
theorem fallback_parser_trigger
    (c : ContainerOracle) (path : String) (mounts : List Mount)
    (e : Nat) (sOut : String)
    (hdir : (c.execRun (testDirCmd path)).1 = 0)
    (hstat : c.execRun (statCmdFor path) = (e, .text sOut)) :
    ((FSEvent.execRun (lsCmdFor path) ∈ (list_files_via_exec c path mounts).2)
        ↔ (e ≠ 0 ∨ pyStrip sOut = "")) ∧
    ((e ≠ 0 ∨ pyStrip sOut = "") →
       ∀ le lt, c.execRun (lsCmdFor path) = (le, .text lt) → le ≠ 0 →
         (list_files_via_exec c path mounts).1
           = .httpError 404 ("Path not found or not accessible inside container: " ++ lt)) ∧
    (pyStrip sOut = "" →
       ∀ lt, c.execRun (lsCmdFor path) = (0, .text lt) →
         (list_files_via_exec c path mounts).1
           = .listing ((pySplit (pyStrip lt) '\n').filterMap
               (parseLsLine (pyRStripSlash path) (mountDestinations mounts)))) := by
  have hshape : list_files_via_exec c path mounts
      = listDirViaExec c path mounts true [FSEvent.execRun (testDirCmd path)] := by
    unfold list_files_via_exec
    rw [if_pos hdir]
  by_cases hrun : e = 0 ∧ sOut ≠ "" ∧ pyStrip sOut ≠ ""
  · -- primary parser used; the fallback never runs
    obtain ⟨he, hs, hst⟩ := hrun
    subst he
    have htr : (list_files_via_exec c path mounts).2
        = [FSEvent.execRun (testDirCmd path), FSEvent.execRun (statCmdFor path)] := by
      rw [hshape]
      unfold listDirViaExec
      simp only [hstat, Bytes.isTruthy, Bytes.decode?, hs, hst]
      simp only [decide_not, ne_eq, hs, not_false_iff, decide_True,
        Bool.not_false, and_self, if_true, hst, if_pos]
      cases parseStatLines true (mountDestinations mounts) (pySplit (pyStrip sOut) '\n') <;>
        simp
    refine ⟨?_, ?_, ?_⟩
    · rw [htr]
      constructor
      · intro hmem
        rcases List.mem_cons.mp hmem with h1 | h2
        · exact absurd (FSEvent.execRun.inj h1) (lsCmd_ne_testDirCmd path path)
        · rcases List.mem_cons.mp h2 with h3 | h4
          · exact absurd (FSEvent.execRun.inj h3) (lsCmd_ne_statCmd path path)
          · cases h4
      · rintro (h1 | h2)
        · exact absurd rfl h1
        · exact absurd h2 hst
    · rintro (h1 | h2)
      · exact absurd rfl h1
      · exact absurd h2 hst
    · intro h2
      exact absurd h2 hst
  · -- the fallback runs
    have hres : list_files_via_exec c path mounts
        = fallbackLs c path (mountDestinations mounts)
            [FSEvent.execRun (testDirCmd path), FSEvent.execRun (statCmdFor path)] := by
      rw [hshape]
      unfold listDirViaExec
      simp only [hstat]
      by_cases he : e = 0
      · subst he
        by_cases hs : sOut = ""
        · subst hs
          simp [Bytes.isTruthy]
        · have hst2 : pyStrip sOut = "" := by
            by_contra hst3
            exact hrun ⟨rfl, hs, hst3⟩
          simp [Bytes.isTruthy, Bytes.decode?, hs, hst2]
      · simp [he]
    have hcond : e ≠ 0 ∨ pyStrip sOut = "" := by
      by_cases he : e = 0
      · subst he
        by_cases hs : sOut = ""
        · subst hs
          exact Or.inr (by decide)
        · right
          by_contra hst3
          exact hrun ⟨rfl, hs, hst3⟩
      · exact Or.inl he
    refine ⟨?_, ?_, ?_⟩
    · rw [hres, fallbackLs_trace]
      exact ⟨fun _ => hcond, fun _ => by simp⟩
    · intro _ le lt hls hle
      rw [hres]
      unfold fallbackLs
      simp only [hls, ne_eq, hle, not_false_iff, if_true, Bytes.decode?]
    · intro _ lt hls
      rw [hres]
      unfold fallbackLs
      simp only [hls, ne_eq, not_true_eq_false, if_false, Bytes.decode?]

/-- Container oracle in which `/d` is a directory, the structured
listing command succeeds with whitespace-only (hence non-empty)
output, and `ls -la` succeeds. -/
def c6ws : ContainerOracle :=
  ⟨fun cmd =>
     if cmd = testDirCmd "/d" then (0, .text "")
     else if cmd = statCmdFor "/d" then (0, .text " ")
     else if cmd = lsCmdFor "/d" then
       (0, .text "total 4\n-rw-r--r-- 1 root root 5 Jan 1 00:00 nginx.conf")
     else (1, .text ""),
   fun _ => .notFound, fun _ => none⟩

/-- Claim C6 counterexample: at the concrete directory `/d` the
primary structured command exits 0 with non-empty output (a single
space), yet the fallback `ls -la` parser runs — so the fallback does
not run "if and only if the primary command returns a non-zero exit
status or empty output": the actual trigger also fires on output that
is blank after stripping. -/
theorem fallback_parser_trigger_counterexample :
    (c6ws.execRun (statCmdFor "/d")).1 = 0 ∧
    (c6ws.execRun (statCmdFor "/d")).2 ≠ .text "" ∧
    ((c6ws.execRun (statCmdFor "/d")).2).isTruthy = true ∧
    FSEvent.execRun (lsCmdFor "/d") ∈ (list_files_via_exec c6ws "/d" []).2 := by
  decide

/-- Container oracle for Scenario C: `/etc/nginx` is a directory, the
structured listing command produces empty output (tool absent), and
`ls -la` succeeds with a BusyBox-style listing. -/
def c6empty : ContainerOracle :=
  ⟨fun cmd =>
     if cmd = testDirCmd "/etc/nginx" then (0, .text "")
     else if cmd = statCmdFor "/etc/nginx" then (0, .text "")
     else if cmd = lsCmdFor "/etc/nginx" then
       (0, .text ("total 4\ndrwxr-xr-x 2 root root 4096 Jan 1 00:00 .\n" ++
         "-rw-r--r-- 1 root root 5 Jan 1 00:00 nginx.conf"))
     else (1, .text ""),
   fun _ => .notFound, fun _ => none⟩

theorem fallback_parser_trigger_witness :
    (c6empty.execRun (testDirCmd "/etc/nginx")).1 = 0 ∧
    c6empty.execRun (statCmdFor "/etc/nginx") = (0, .text "") ∧
    FSEvent.execRun (lsCmdFor "/etc/nginx")
        ∈ (list_files_via_exec c6empty "/etc/nginx" []).2 ∧
    (list_files_via_exec c6empty "/etc/nginx" []).1
        = .listing [⟨"nginx.conf", "file", 5, 0, false, false⟩] :=
  have h := fallback_parser_trigger c6empty "/etc/nginx" [] 0 ""
    (by decide) (by decide)
  ⟨by decide, by decide,
   h.1.mpr (Or.inr (by decide)),
   by
     rw [h.2.2 (by decide)
       ("total 4\ndrwxr-xr-x 2 root root 4096 Jan 1 00:00 .\n" ++
         "-rw-r--r-- 1 root root 5 Jan 1 00:00 nginx.conf") (by decide)]
     decide⟩

end MobilePortainer
